import Mathlib

/-!
Verification of the churn-prediction preprocessing pipeline.

Shallow embedding of:
  - src/config/settings.py          (constants, allowed values, feature order)
  - src/src/feature_engineering.py  (four derived features and their gate)
  - src/src/encoders.py             (categorical encoding)
  - src/streamlit_cloud/src/preprocessing.py (validation, pipeline, batch)

Monetary amounts are modelled as exact rationals; tenure as an integer, as in
the source (a Python `int`). Fallible Python functions (raising ValueError /
KeyError) are modelled with `Except`.
-/

namespace Churn

/-! ### Settings (src/config/settings.py) -/

def CONTRACT_VALUES : List String :=
  ["Month-to-month", "One year", "Two year"]

def PAYMENT_METHOD_VALUES : List String :=
  ["Bank transfer (automatic)", "Credit card (automatic)",
   "Electronic check", "Mailed check"]

def INTERNET_SERVICE_VALUES : List String :=
  ["DSL", "Fiber optic", "No"]

def PAPERLESS_BILLING_VALUES : List String :=
  ["No", "Yes"]

/-- TENURE_SEGMENT_MAPPING: Python dict from segment label to code. -/
def TENURE_SEGMENT_MAPPING : String → Option ℕ
  | "Nouveaux_0-6m" => some 0
  | "Junior_6-12m" => some 1
  | "Moyen_12-24m" => some 2
  | "Senior_24m+" => some 3
  | _ => none

/-- MODEL_FEATURES: the exact model feature order. -/
def MODEL_FEATURES : List String :=
  ["Ratio_MonthlyCharges_tenure",
   "Contract",
   "tenure",
   "MonthlyCharges",
   "tenure_segment_encoded",
   "TotalCharges",
   "is_new_customer",
   "PaymentMethod",
   "InternetService",
   "PaperlessBilling",
   "Ratio_TotalCharges_MonthlyCharges*tenure"]

def MIN_TENURE : ℤ := 0

/-- MIN_MONTHLY_CHARGES = 0.01 in settings.py (used with a strict `gt` bound). -/
def MIN_MONTHLY_CHARGES : ℚ := 1/100

def MIN_TOTAL_CHARGES : ℚ := 0

/-! ### Feature engineering (src/src/feature_engineering.py) -/

/-- calculate_ratio_monthly_charges_tenure: monthly_charges / (tenure + 1),
with the two precondition checks raising ValueError in the source. -/
def calculate_ratio_monthly_charges_tenure (monthly_charges : ℚ) (tenure : ℤ) :
    Except String ℚ :=
  if monthly_charges ≤ 0 then
    .error "MonthlyCharges doit etre > 0"
  else if tenure < 0 then
    .error "Tenure doit etre >= 0"
  else
    .ok (monthly_charges / ((tenure : ℚ) + 1))

/-- calculate_ratio_total_monthly_tenure: total_charges / (monthly_charges * tenure),
forced to 1.0 when tenure = 0, after the three precondition checks. -/
def calculate_ratio_total_monthly_tenure (total_charges monthly_charges : ℚ)
    (tenure : ℤ) : Except String ℚ :=
  if total_charges < 0 then
    .error "TotalCharges doit etre >= 0"
  else if monthly_charges ≤ 0 then
    .error "MonthlyCharges doit etre > 0"
  else if tenure < 0 then
    .error "Tenure doit etre >= 0"
  else if tenure = 0 then
    .ok 1
  else
    .ok (total_charges / (monthly_charges * (tenure : ℚ)))

/-- calculate_tenure_segment_encoded: bucket the tenure into one of four labelled
segments, then encode through TENURE_SEGMENT_MAPPING (a Python dict lookup,
which would raise KeyError on a missing label). -/
def calculate_tenure_segment_encoded (tenure : ℤ) : Except String ℕ :=
  if tenure < 0 then
    .error "Tenure doit etre >= 0"
  else
    let segment :=
      if tenure ≤ 6 then "Nouveaux_0-6m"
      else if tenure ≤ 12 then "Junior_6-12m"
      else if tenure ≤ 24 then "Moyen_12-24m"
      else "Senior_24m+"
    match TENURE_SEGMENT_MAPPING segment with
    | some code => .ok code
    | none => .error "KeyError"

/-- calculate_is_new_customer: 1 if tenure <= 6 else 0, after the precondition check. -/
def calculate_is_new_customer (tenure : ℤ) : Except String ℕ :=
  if tenure < 0 then
    .error "Tenure doit etre >= 0"
  else
    .ok (if tenure ≤ 6 then 1 else 0)

/-- compute_all_engineered_features: global input validation, then the four
features assembled into a dict (modelled as an association list, in the
insertion order of the Python dict literal). -/
def compute_all_engineered_features (tenure : ℤ) (monthly_charges total_charges : ℚ) :
    Except String (List (String × ℚ)) :=
  if tenure < 0 then
    .error "tenure doit etre >= 0"
  else if monthly_charges ≤ 0 then
    .error "monthly_charges doit etre > 0"
  else if total_charges < 0 then
    .error "total_charges doit etre >= 0"
  else do
    let r1 ← calculate_ratio_monthly_charges_tenure monthly_charges tenure
    let seg ← calculate_tenure_segment_encoded tenure
    let inew ← calculate_is_new_customer tenure
    let r2 ← calculate_ratio_total_monthly_tenure total_charges monthly_charges tenure
    .ok [("Ratio_MonthlyCharges_tenure", r1),
         ("tenure_segment_encoded", (seg : ℚ)),
         ("is_new_customer", (inew : ℚ)),
         ("Ratio_TotalCharges_MonthlyCharges*tenure", r2)]

/-- validate_engineered_features: all four keys present, first ratio positive,
segment in 0..3, new-customer flag boolean, second ratio nonnegative. -/
def validate_engineered_features (features : List (String × ℚ)) : Bool :=
  match features.lookup "Ratio_MonthlyCharges_tenure",
        features.lookup "tenure_segment_encoded",
        features.lookup "is_new_customer",
        features.lookup "Ratio_TotalCharges_MonthlyCharges*tenure" with
  | some r1, some seg, some inew, some r2 =>
      decide (0 < r1) &&
      decide (seg = 0 ∨ seg = 1 ∨ seg = 2 ∨ seg = 3) &&
      decide (inew = 0 ∨ inew = 1) &&
      decide (0 ≤ r2)
  | _, _, _, _ => false

/-! ### Encoders (src/src/encoders.py) -/

/-- Error classes of EncoderManager.encode_feature: KeyError for an
unrecognized feature name, ValueError for a value outside the allowed set. -/
inductive EncodeError
  | unknownField (feature_name : String)
  | invalidValue (feature_name value : String)
deriving DecidableEq

/-- feature_mappings of EncoderManager: allowed values per categorical field. -/
def feature_mappings : String → Option (List String)
  | "Contract" => some CONTRACT_VALUES
  | "PaymentMethod" => some PAYMENT_METHOD_VALUES
  | "InternetService" => some INTERNET_SERVICE_VALUES
  | "PaperlessBilling" => some PAPERLESS_BILLING_VALUES
  | _ => none

/-- The keys of self.encoders, in the insertion order of ENCODER_FILES. -/
def encoder_fields : List String :=
  ["Contract", "PaymentMethod", "InternetService", "PaperlessBilling"]

/-- EncoderManager.encode_feature: KeyError if the feature has no encoder,
ValueError if the value is not in the allowed list, else the integer code from
the persisted LabelEncoder. The pickled LabelEncoder artifact is not source
code; its transform is modelled as the index of the value in the
alphabetically ordered class list — the allowed-value lists in settings.py are
already in that order — matching the codes asserted in
tests/test_preprocessing.py (Month-to-month=0, One year=1, Two year=2, ...). -/
def encode_feature (feature_name value : String) : Except EncodeError ℕ :=
  match feature_mappings feature_name with
  | none => .error (.unknownField feature_name)
  | some allowed =>
      if value ∈ allowed then
        .ok (allowed.indexOf value)
      else
        .error (.invalidValue feature_name value)

/-- The loop body of encode_all_features: iterate over the encoder keys,
encode a field only when it is present in the data, abort on the first
encoding failure. -/
def encode_fields : List String → List (String × String) →
    Except EncodeError (List (String × ℕ))
  | [], _ => .ok []
  | f :: fs, data =>
      match data.lookup f with
      | none => encode_fields fs data
      | some v => do
          let code ← encode_feature f v
          let rest ← encode_fields fs data
          .ok ((f, code) :: rest)

/-- EncoderManager.encode_all_features: encode every recognized field present
in the input dict, silently skipping absent ones. -/
def encode_all_features (data : List (String × String)) :
    Except EncodeError (List (String × ℕ)) :=
  encode_fields encoder_fields data

/-! ### Preprocessing pipeline (src/streamlit_cloud/src/preprocessing.py) -/

/-- The pydantic input model ClientInput (typed fields; the constraints are
checked by validate_input below). -/
structure ClientInput where
  contract : String
  tenure : ℤ
  monthly_charges : ℚ
  total_charges : ℚ
  payment_method : String
  internet_service : String
  paperless_billing : String
deriving DecidableEq

/-- The per-field checks of the pydantic model: `ge`/`gt` bounds on the
numeric fields and the four allowed-value validators. Pydantic validates the
fields independently and aggregates every failure into a single
ValidationError, reported in field declaration order; violated_fields lists
the failing field names in that order. -/
def violated_fields (d : ClientInput) : List String :=
  (if d.contract ∈ CONTRACT_VALUES then [] else ["contract"]) ++
  (if MIN_TENURE ≤ d.tenure then [] else ["tenure"]) ++
  (if MIN_MONTHLY_CHARGES < d.monthly_charges then [] else ["monthly_charges"]) ++
  (if MIN_TOTAL_CHARGES ≤ d.total_charges then [] else ["total_charges"]) ++
  (if d.payment_method ∈ PAYMENT_METHOD_VALUES then [] else ["payment_method"]) ++
  (if d.internet_service ∈ INTERNET_SERVICE_VALUES then [] else ["internet_service"]) ++
  (if d.paperless_billing ∈ PAPERLESS_BILLING_VALUES then [] else ["paperless_billing"])

/-- The error taxonomy of the pipeline: pydantic ValidationError (wrapped in
ValueError by validate_input), encoder errors, feature-engineering ValueError,
the internal-consistency gate failure, and a missing feature at assembly. -/
inductive PreprocessError
  | validation (fields : List String)
  | encoding (e : EncodeError)
  | engineering (msg : String)
  | internal
  | missingFeature (feature_name : String)
deriving DecidableEq

/-- ChurnPreprocessor.validate_input: build the pydantic model; on any field
failure, re-raise with the aggregated list of violated fields. -/
def ChurnPreprocessor.validate_input (d : ClientInput) :
    Except PreprocessError ClientInput :=
  if violated_fields d = [] then .ok d
  else .error (.validation (violated_fields d))

/-- ChurnPreprocessor.encode_categorical_features: encode the four categorical
fields of a validated input through encode_all_features. -/
def ChurnPreprocessor.encode_categorical_features (v : ClientInput) :
    Except PreprocessError (List (String × ℕ)) :=
  Except.mapError .encoding
    (encode_all_features
      [("Contract", v.contract),
       ("PaymentMethod", v.payment_method),
       ("InternetService", v.internet_service),
       ("PaperlessBilling", v.paperless_billing)])

/-- ChurnPreprocessor.compute_engineered_features: compute the four derived
features, then run the validate_engineered_features gate; a failing gate
raises ValueError "Features engineered invalides" (the InternalError class). -/
def ChurnPreprocessor.compute_engineered_features (v : ClientInput) :
    Except PreprocessError (List (String × ℚ)) :=
  match compute_all_engineered_features v.tenure v.monthly_charges v.total_charges with
  | .error m => .error (.engineering m)
  | .ok features =>
      if validate_engineered_features features then .ok features
      else .error .internal

/-- The assembly loop of build_feature_vector: walk the model feature order,
fail on the first missing feature, append the values in order. -/
def lookup_features : List String → List (String × ℚ) →
    Except PreprocessError (List ℚ)
  | [], _ => .ok []
  | feature_name :: names, all_features =>
      match all_features.lookup feature_name with
      | none => .error (.missingFeature feature_name)
      | some x => do
          let rest ← lookup_features names all_features
          .ok (x :: rest)

/-- ChurnPreprocessor.build_feature_vector: merge raw, encoded and engineered
features into one dict (keys are disjoint, so an association list with
first-match lookup agrees with the Python dict merge) and read them out in
MODEL_FEATURES order. -/
def ChurnPreprocessor.build_feature_vector (v : ClientInput)
    (encoded : List (String × ℕ)) (engineered : List (String × ℚ)) :
    Except PreprocessError (List ℚ) :=
  let all_features : List (String × ℚ) :=
    [("tenure", (v.tenure : ℚ)),
     ("MonthlyCharges", v.monthly_charges),
     ("TotalCharges", v.total_charges)] ++
    encoded.map (fun p => (p.1, (p.2 : ℚ))) ++
    engineered
  lookup_features MODEL_FEATURES all_features

/-- ChurnPreprocessor.preprocess: validate, encode, engineer, assemble. -/
def ChurnPreprocessor.preprocess (d : ClientInput) :
    Except PreprocessError (List ℚ) := do
  let v ← ChurnPreprocessor.validate_input d
  let encoded ← ChurnPreprocessor.encode_categorical_features v
  let engineered ← ChurnPreprocessor.compute_engineered_features v
  ChurnPreprocessor.build_feature_vector v encoded engineered

/-- The loop of preprocess_batch from index i: preprocess each record in
order; the first failure at record i aborts the whole batch with an error
naming i ("Erreur preprocessing client i"). -/
def preprocess_batch_from (i : ℕ) :
    List ClientInput → Except (ℕ × PreprocessError) (List (List ℚ))
  | [] => .ok []
  | d :: ds =>
      match ChurnPreprocessor.preprocess d with
      | .error e => .error (i, e)
      | .ok v =>
          match preprocess_batch_from (i + 1) ds with
          | .error ie => .error ie
          | .ok vs => .ok (v :: vs)

/-- ChurnPreprocessor.preprocess_batch: all-or-nothing batch preprocessing. -/
def ChurnPreprocessor.preprocess_batch (ds : List ClientInput) :
    Except (ℕ × PreprocessError) (List (List ℚ)) :=
  preprocess_batch_from 0 ds

end Churn

namespace Churn

/-! ### Helper lemmas -/

theorem mem_ite_nil_singleton (x s : String) (c : Prop) [Decidable c] :
    x ∈ (if c then ([] : List String) else [s]) ↔ ¬ c ∧ x = s := by
  by_cases h : c <;> simp [h]

theorem ratio_monthly_ok (monthly_charges : ℚ) (tenure : ℤ)
    (hmc : 0 < monthly_charges) (ht : 0 ≤ tenure) :
    calculate_ratio_monthly_charges_tenure monthly_charges tenure =
      .ok (monthly_charges / ((tenure : ℚ) + 1)) := by
  have h1 : ¬ tenure < 0 := by omega
  simp [calculate_ratio_monthly_charges_tenure, not_le.mpr hmc, h1]

theorem segment_ok (tenure : ℤ) (ht : 0 ≤ tenure) :
    calculate_tenure_segment_encoded tenure =
      .ok (if tenure ≤ 6 then 0 else if tenure ≤ 12 then 1
           else if tenure ≤ 24 then 2 else 3) := by
  have h1 : ¬ tenure < 0 := by omega
  by_cases h6 : tenure ≤ 6
  · simp [calculate_tenure_segment_encoded, h1, h6, TENURE_SEGMENT_MAPPING]
  · by_cases h12 : tenure ≤ 12
    · simp [calculate_tenure_segment_encoded, h1, h6, h12, TENURE_SEGMENT_MAPPING]
    · by_cases h24 : tenure ≤ 24
      · simp [calculate_tenure_segment_encoded, h1, h6, h12, h24,
              TENURE_SEGMENT_MAPPING]
      · simp [calculate_tenure_segment_encoded, h1, h6, h12, h24,
              TENURE_SEGMENT_MAPPING]

theorem isnew_ok (tenure : ℤ) (ht : 0 ≤ tenure) :
    calculate_is_new_customer tenure = .ok (if tenure ≤ 6 then 1 else 0) := by
  have h1 : ¬ tenure < 0 := by omega
  simp [calculate_is_new_customer, h1]

theorem ratio_total_ok (total_charges monthly_charges : ℚ) (tenure : ℤ)
    (htc : 0 ≤ total_charges) (hmc : 0 < monthly_charges) (ht : 0 ≤ tenure) :
    calculate_ratio_total_monthly_tenure total_charges monthly_charges tenure =
      .ok (if tenure = 0 then 1
           else total_charges / (monthly_charges * (tenure : ℚ))) := by
  have h1 : ¬ tenure < 0 := by omega
  by_cases h0 : tenure = 0
  · simp [calculate_ratio_total_monthly_tenure, not_lt.mpr htc, not_le.mpr hmc,
          h1, h0]
  · simp [calculate_ratio_total_monthly_tenure, not_lt.mpr htc, not_le.mpr hmc,
          h1, h0]

theorem compute_all_ok (tenure : ℤ) (monthly_charges total_charges : ℚ)
    (ht : 0 ≤ tenure) (hmc : 0 < monthly_charges) (htc : 0 ≤ total_charges) :
    compute_all_engineered_features tenure monthly_charges total_charges =
      .ok [("Ratio_MonthlyCharges_tenure", monthly_charges / ((tenure : ℚ) + 1)),
           ("tenure_segment_encoded",
             ((if tenure ≤ 6 then 0 else if tenure ≤ 12 then 1
               else if tenure ≤ 24 then 2 else 3 : ℕ) : ℚ)),
           ("is_new_customer", ((if tenure ≤ 6 then 1 else 0 : ℕ) : ℚ)),
           ("Ratio_TotalCharges_MonthlyCharges*tenure",
             if tenure = 0 then 1
             else total_charges / (monthly_charges * (tenure : ℚ)))] := by
  have h1 : ¬ tenure < 0 := by omega
  have h2 : ¬ monthly_charges ≤ 0 := not_le.mpr hmc
  have h3 : ¬ total_charges < 0 := not_lt.mpr htc
  simp only [compute_all_engineered_features, if_neg h1, if_neg h2, if_neg h3,
    ratio_monthly_ok monthly_charges tenure hmc ht, segment_ok tenure ht,
    isnew_ok tenure ht,
    ratio_total_ok total_charges monthly_charges tenure htc hmc ht]
  rfl

theorem gate_true (tenure : ℤ) (monthly_charges total_charges : ℚ)
    (ht : 0 ≤ tenure) (hmc : 0 < monthly_charges) (htc : 0 ≤ total_charges) :
    validate_engineered_features
      [("Ratio_MonthlyCharges_tenure", monthly_charges / ((tenure : ℚ) + 1)),
       ("tenure_segment_encoded",
         ((if tenure ≤ 6 then 0 else if tenure ≤ 12 then 1
           else if tenure ≤ 24 then 2 else 3 : ℕ) : ℚ)),
       ("is_new_customer", ((if tenure ≤ 6 then 1 else 0 : ℕ) : ℚ)),
       ("Ratio_TotalCharges_MonthlyCharges*tenure",
         if tenure = 0 then 1
         else total_charges / (monthly_charges * (tenure : ℚ)))] = true := by
  have htq : (0 : ℚ) ≤ (tenure : ℚ) := by exact_mod_cast ht
  have hden : (0 : ℚ) < (tenure : ℚ) + 1 := by linarith
  show (decide (0 < monthly_charges / ((tenure : ℚ) + 1)) &&
      decide (((if tenure ≤ 6 then 0 else if tenure ≤ 12 then 1
           else if tenure ≤ 24 then 2 else 3 : ℕ) : ℚ) = 0 ∨
        ((if tenure ≤ 6 then 0 else if tenure ≤ 12 then 1
           else if tenure ≤ 24 then 2 else 3 : ℕ) : ℚ) = 1 ∨
        ((if tenure ≤ 6 then 0 else if tenure ≤ 12 then 1
           else if tenure ≤ 24 then 2 else 3 : ℕ) : ℚ) = 2 ∨
        ((if tenure ≤ 6 then 0 else if tenure ≤ 12 then 1
           else if tenure ≤ 24 then 2 else 3 : ℕ) : ℚ) = 3) &&
      decide (((if tenure ≤ 6 then 1 else 0 : ℕ) : ℚ) = 0 ∨
        ((if tenure ≤ 6 then 1 else 0 : ℕ) : ℚ) = 1) &&
      decide (0 ≤ (if tenure = 0 then 1
         else total_charges / (monthly_charges * (tenure : ℚ))))) = true
  simp only [Bool.and_eq_true, decide_eq_true_eq]
  refine ⟨⟨⟨div_pos hmc hden, ?_⟩, ?_⟩, ?_⟩
  · split_ifs <;> norm_num
  · split_ifs <;> norm_num
  · split_ifs with h0
    · norm_num
    · have htq1 : (0 : ℚ) < (tenure : ℚ) := by
        have h2 : 0 < tenure := by omega
        exact_mod_cast h2
      exact div_nonneg htc (le_of_lt (mul_pos hmc htq1))

theorem ite_nil_singleton_eq_nil (c : Prop) [Decidable c] (s : String) :
    ((if c then ([] : List String) else [s]) = []) ↔ c := by
  by_cases h : c <;> simp [h]

theorem encode_categorical_ok (v : ClientInput)
    (hc : v.contract ∈ CONTRACT_VALUES)
    (hpm : v.payment_method ∈ PAYMENT_METHOD_VALUES)
    (his : v.internet_service ∈ INTERNET_SERVICE_VALUES)
    (hpb : v.paperless_billing ∈ PAPERLESS_BILLING_VALUES) :
    ChurnPreprocessor.encode_categorical_features v =
      .ok [("Contract", CONTRACT_VALUES.indexOf v.contract),
           ("PaymentMethod", PAYMENT_METHOD_VALUES.indexOf v.payment_method),
           ("InternetService",
             INTERNET_SERVICE_VALUES.indexOf v.internet_service),
           ("PaperlessBilling",
             PAPERLESS_BILLING_VALUES.indexOf v.paperless_billing)] := by
  simp [ChurnPreprocessor.encode_categorical_features, encode_all_features,
        encoder_fields, encode_fields, List.lookup, encode_feature,
        feature_mappings, hc, hpm, his, hpb, Except.mapError]
  rfl

theorem feature_mappings_none (f : String) (hf : f ∉ encoder_fields) :
    feature_mappings f = none := by
  simp [encoder_fields] at hf
  simp [feature_mappings, hf.1, hf.2.1, hf.2.2.1, hf.2.2.2]

theorem feature_mappings_isSome (f : String) (hf : f ∈ encoder_fields) :
    ∃ allowed, feature_mappings f = some allowed := by
  simp [encoder_fields] at hf
  rcases hf with rfl | rfl | rfl | rfl <;> simp [feature_mappings]

/-! ### Claim theorems -/

/-- C3: for total_charges >= 0 and monthly_charges > 0,
calculate_ratio_total_monthly_tenure returns exactly 1 when tenure = 0
(regardless of total_charges, including 0), and
total_charges / (monthly_charges * tenure) when tenure > 0. -/
theorem ratio_total_monthly_tenure_spec (total_charges monthly_charges : ℚ)
    (tenure : ℤ) (htc : 0 ≤ total_charges) (hmc : 0 < monthly_charges) :
    (tenure = 0 →
      calculate_ratio_total_monthly_tenure total_charges monthly_charges tenure =
        .ok 1) ∧
    (0 < tenure →
      calculate_ratio_total_monthly_tenure total_charges monthly_charges tenure =
        .ok (total_charges / (monthly_charges * (tenure : ℚ)))) := by
  constructor
  · intro h0
    subst h0
    simp [calculate_ratio_total_monthly_tenure, not_lt.mpr htc, not_le.mpr hmc]
  · intro hpos
    have h1 : ¬ tenure < 0 := by omega
    have h2 : tenure ≠ 0 := by omega
    simp [calculate_ratio_total_monthly_tenure, not_lt.mpr htc, not_le.mpr hmc, h1, h2]

/-- Witness for C3 at total_charges = 0, monthly_charges = 50, tenure = 0. -/
theorem ratio_total_monthly_tenure_spec_witness :
    calculate_ratio_total_monthly_tenure 0 50 0 = .ok 1 :=
  (ratio_total_monthly_tenure_spec 0 50 0 (by norm_num) (by norm_num)).1 rfl

/-- C4: for tenure >= 0, calculate_tenure_segment_encoded is the step function
with value 0 on tenure <= 6, 1 on 7..12, 2 on 13..24 and 3 above 24, with no
upper bound; in particular at 6, 7, 12, 13, 24, 25 it gives 0, 1, 1, 2, 2, 3. -/
theorem tenure_segment_encoded_spec (tenure : ℤ) (h : 0 ≤ tenure) :
    calculate_tenure_segment_encoded tenure =
      .ok (if tenure ≤ 6 then 0 else if tenure ≤ 12 then 1
           else if tenure ≤ 24 then 2 else 3) ∧
    calculate_tenure_segment_encoded 6 = .ok 0 ∧
    calculate_tenure_segment_encoded 7 = .ok 1 ∧
    calculate_tenure_segment_encoded 12 = .ok 1 ∧
    calculate_tenure_segment_encoded 13 = .ok 2 ∧
    calculate_tenure_segment_encoded 24 = .ok 2 ∧
    calculate_tenure_segment_encoded 25 = .ok 3 := by
  refine ⟨?_, rfl, rfl, rfl, rfl, rfl, rfl⟩
  have h1 : ¬ tenure < 0 := by omega
  by_cases h6 : tenure ≤ 6
  · simp [calculate_tenure_segment_encoded, h1, h6, TENURE_SEGMENT_MAPPING]
  · by_cases h12 : tenure ≤ 12
    · simp [calculate_tenure_segment_encoded, h1, h6, h12, TENURE_SEGMENT_MAPPING]
    · by_cases h24 : tenure ≤ 24
      · simp [calculate_tenure_segment_encoded, h1, h6, h12, h24,
              TENURE_SEGMENT_MAPPING]
      · simp [calculate_tenure_segment_encoded, h1, h6, h12, h24,
              TENURE_SEGMENT_MAPPING]

/-- Witness for C4 at tenure = 13. -/
theorem tenure_segment_encoded_spec_witness :
    calculate_tenure_segment_encoded 13 =
      .ok (if (13 : ℤ) ≤ 6 then 0 else if (13 : ℤ) ≤ 12 then 1
           else if (13 : ℤ) ≤ 24 then 2 else 3) :=
  (tenure_segment_encoded_spec 13 (by norm_num)).1

/-- C10: for tenure >= 0, the lowest tenure segment and the new-customer flag
coincide: calculate_tenure_segment_encoded returns 0 exactly when
calculate_is_new_customer returns 1 (both governed by tenure <= 6). -/
theorem segment_zero_iff_new_customer (tenure : ℤ) (h : 0 ≤ tenure) :
    calculate_tenure_segment_encoded tenure = .ok 0 ↔
      calculate_is_new_customer tenure = .ok 1 := by
  have h1 : ¬ tenure < 0 := by omega
  by_cases h6 : tenure ≤ 6
  · simp [calculate_tenure_segment_encoded, calculate_is_new_customer, h1, h6,
          TENURE_SEGMENT_MAPPING]
  · by_cases h12 : tenure ≤ 12
    · simp [calculate_tenure_segment_encoded, calculate_is_new_customer, h1, h6,
            h12, TENURE_SEGMENT_MAPPING]
    · by_cases h24 : tenure ≤ 24
      · simp [calculate_tenure_segment_encoded, calculate_is_new_customer, h1,
              h6, h12, h24, TENURE_SEGMENT_MAPPING]
      · simp [calculate_tenure_segment_encoded, calculate_is_new_customer, h1,
              h6, h12, h24, TENURE_SEGMENT_MAPPING]

/-- Witness for C10 at tenure = 3. -/
theorem segment_zero_iff_new_customer_witness :
    calculate_is_new_customer 3 = .ok 1 :=
  (segment_zero_iff_new_customer 3 (by norm_num)).mp rfl

/-- C5: encode_feature succeeds exactly on a recognized field with an
in-domain value: it returns the integer code for every value in the field's
allowed set, fails with the invalidValue (ValueError) class on a recognized
field with an out-of-domain value, and fails with the unknownField (KeyError)
class on every field name outside the four recognized ones. -/
theorem encode_feature_spec (feature_name value : String) :
    ((∃ code, encode_feature feature_name value = .ok code) ↔
      ∃ allowed, feature_mappings feature_name = some allowed ∧
        value ∈ allowed) ∧
    (feature_name ∉ encoder_fields →
      encode_feature feature_name value = .error (.unknownField feature_name)) ∧
    (∀ allowed, feature_mappings feature_name = some allowed → value ∉ allowed →
      encode_feature feature_name value =
        .error (.invalidValue feature_name value)) ∧
    (∀ allowed, feature_mappings feature_name = some allowed → value ∈ allowed →
      encode_feature feature_name value = .ok (allowed.indexOf value)) := by
  refine ⟨?_, ?_, ?_, ?_⟩
  · cases h : feature_mappings feature_name with
    | none => simp [encode_feature, h]
    | some allowed =>
        by_cases hv : value ∈ allowed
        · simp [encode_feature, h, hv]
        · simp [encode_feature, h, hv]
  · intro hf
    simp [encode_feature, feature_mappings_none feature_name hf]
  · intro allowed h hv
    simp [encode_feature, h, hv]
  · intro allowed h hv
    simp [encode_feature, h, hv]

/-- Witness for C5: an out-of-domain contract value fails with the
ValueError class. -/
theorem encode_feature_spec_witness :
    encode_feature "Contract" "Fortnightly" =
      .error (.invalidValue "Contract" "Fortnightly") :=
  (encode_feature_spec "Contract" "Fortnightly").2.2.1 CONTRACT_VALUES rfl
    (by decide)

/-- C8: for tenure >= 0, monthly_charges > 0 and total_charges >= 0, the
post-engineering gate always passes: compute_all_engineered_features
succeeds, validate_engineered_features is true on its output (all four keys
present, first ratio positive, segment in 0..3, flag boolean, second ratio
nonnegative), so the InternalError branch of the pipeline stage
compute_engineered_features is unreachable. -/
theorem engineered_features_gate (tenure : ℤ)
    (monthly_charges total_charges : ℚ) (ht : 0 ≤ tenure)
    (hmc : 0 < monthly_charges) (htc : 0 ≤ total_charges) :
    ∃ features,
      compute_all_engineered_features tenure monthly_charges total_charges =
        .ok features ∧
      validate_engineered_features features = true ∧
      ∀ contract payment_method internet_service paperless_billing,
        ChurnPreprocessor.compute_engineered_features
          ⟨contract, tenure, monthly_charges, total_charges,
           payment_method, internet_service, paperless_billing⟩ =
          .ok features := by
  refine ⟨_, compute_all_ok tenure monthly_charges total_charges ht hmc htc,
          gate_true tenure monthly_charges total_charges ht hmc htc, ?_⟩
  intro contract payment_method internet_service paperless_billing
  have hg := gate_true tenure monthly_charges total_charges ht hmc htc
  simp only [ChurnPreprocessor.compute_engineered_features,
    compute_all_ok tenure monthly_charges total_charges ht hmc htc, hg,
    if_true]

theorem encode_fields_skips_absent (data : List (String × String))
    (hvalid : ∀ f v allowed, data.lookup f = some v →
      feature_mappings f = some allowed → v ∈ allowed) :
    ∀ fs : List String, (∀ f ∈ fs, (feature_mappings f).isSome) →
      encode_fields fs data =
        .ok (fs.filterMap fun f =>
          match data.lookup f, feature_mappings f with
          | some v, some allowed => some (f, allowed.indexOf v)
          | _, _ => none) := by
  intro fs
  induction fs with
  | nil => intro _; simp [encode_fields]
  | cons f fs ih =>
      intro hfs
      have hf := hfs f (by simp)
      obtain ⟨allowed, hall⟩ := Option.isSome_iff_exists.mp hf
      have hrest := ih (fun g hg => hfs g (by simp [hg]))
      cases hd : data.lookup f with
      | none =>
          simp [encode_fields, hd, hrest, List.filterMap_cons]
      | some v =>
          have hv : v ∈ allowed := hvalid f v allowed hd hall
          simp [encode_fields, hd, hrest, List.filterMap_cons, hall,
                encode_feature, hv]
          rfl

theorem filterMap_fst_eq_filter (data : List (String × String)) :
    ∀ fs : List String, (∀ f ∈ fs, (feature_mappings f).isSome) →
      (fs.filterMap fun f =>
        match data.lookup f, feature_mappings f with
        | some v, some allowed => some (f, allowed.indexOf v)
        | _, _ => none).map Prod.fst =
      fs.filter (fun f => (data.lookup f).isSome) := by
  intro fs
  induction fs with
  | nil => intro _; simp
  | cons f fs ih =>
      intro hfs
      have hf := hfs f (by simp)
      obtain ⟨allowed, hall⟩ := Option.isSome_iff_exists.mp hf
      have hrest := ih (fun g hg => hfs g (by simp [hg]))
      cases hd : data.lookup f with
      | none => simp [List.filterMap_cons, List.filter_cons, hd, hrest]
      | some v => simp [List.filterMap_cons, List.filter_cons, hd, hall, hrest]

/-- C9: encode_all_features never fails because of an absent field: whenever
every recognized field present in the input dict carries an allowed value, it
succeeds and returns a partial result covering exactly the recognized fields
present (in encoder order), silently omitting the absent ones. -/
theorem encode_all_features_skips_absent (data : List (String × String))
    (hvalid : ∀ f v allowed, data.lookup f = some v →
      feature_mappings f = some allowed → v ∈ allowed) :
    encode_all_features data =
      .ok (encoder_fields.filterMap fun f =>
        match data.lookup f, feature_mappings f with
        | some v, some allowed => some (f, allowed.indexOf v)
        | _, _ => none) ∧
    (encoder_fields.filterMap fun f =>
        match data.lookup f, feature_mappings f with
        | some v, some allowed => some (f, allowed.indexOf v)
        | _, _ => none).map Prod.fst =
      encoder_fields.filter (fun f => (data.lookup f).isSome) := by
  have hfs : ∀ f ∈ encoder_fields, (feature_mappings f).isSome := by decide
  exact ⟨encode_fields_skips_absent data hvalid encoder_fields hfs,
         filterMap_fst_eq_filter data encoder_fields hfs⟩

/-- Witness for C9: a dict with only Contract and InternetService present
encodes to a partial result with exactly those two fields, with no error for
the two absent fields. -/
theorem encode_all_features_skips_absent_witness :
    encode_all_features [("Contract", "Two year"), ("InternetService", "DSL")] =
      .ok [("Contract", 2), ("InternetService", 0)] := by
  have hvalid : ∀ (f v : String) (allowed : List String),
      (([("Contract", "Two year"), ("InternetService", "DSL")] :
        List (String × String)).lookup f) = some v →
      feature_mappings f = some allowed → v ∈ allowed := by
    intro f v allowed hd hm
    simp only [List.lookup] at hd
    cases hb1 : f == "Contract" with
    | true =>
        have hf : f = "Contract" := eq_of_beq hb1
        subst hf
        simp at hd
        simp [feature_mappings] at hm
        subst hd
        subst hm
        decide
    | false =>
        rw [hb1] at hd
        cases hb2 : f == "InternetService" with
        | true =>
            have hf : f = "InternetService" := eq_of_beq hb2
            subst hf
            simp at hd hb1
            simp [feature_mappings] at hm
            subst hd
            subst hm
            decide
        | false =>
            rw [hb2] at hd
            simp at hd
  have h := (encode_all_features_skips_absent
    [("Contract", "Two year"), ("InternetService", "DSL")] hvalid).1
  rw [h]
  rfl

/-- Witness for C8 at tenure = 0, monthly_charges = 50, total_charges = 0. -/
theorem engineered_features_gate_witness :
    ∃ features,
      compute_all_engineered_features 0 50 0 = .ok features ∧
      validate_engineered_features features = true ∧
      ∀ contract payment_method internet_service paperless_billing,
        ChurnPreprocessor.compute_engineered_features
          ⟨contract, 0, 50, 0, payment_method, internet_service,
           paperless_billing⟩ = .ok features :=
  engineered_features_gate 0 50 0 (by norm_num) (by norm_num) (by norm_num)

/-- C7: when more than one field violates its constraint, stage-1 validation
fails with a single aggregated error whose detail lists every violated field:
each of the seven field names appears in the error exactly when that field's
constraint is violated. -/
theorem validate_input_aggregates (d : ClientInput)
    (h : 2 ≤ (violated_fields d).length) :
    ChurnPreprocessor.validate_input d =
      .error (.validation (violated_fields d)) ∧
    ("contract" ∈ violated_fields d ↔ d.contract ∉ CONTRACT_VALUES) ∧
    ("tenure" ∈ violated_fields d ↔ ¬ MIN_TENURE ≤ d.tenure) ∧
    ("monthly_charges" ∈ violated_fields d ↔
      ¬ MIN_MONTHLY_CHARGES < d.monthly_charges) ∧
    ("total_charges" ∈ violated_fields d ↔
      ¬ MIN_TOTAL_CHARGES ≤ d.total_charges) ∧
    ("payment_method" ∈ violated_fields d ↔
      d.payment_method ∉ PAYMENT_METHOD_VALUES) ∧
    ("internet_service" ∈ violated_fields d ↔
      d.internet_service ∉ INTERNET_SERVICE_VALUES) ∧
    ("paperless_billing" ∈ violated_fields d ↔
      d.paperless_billing ∉ PAPERLESS_BILLING_VALUES) := by
  have hne : violated_fields d ≠ [] := by
    intro h0
    rw [h0] at h
    simp at h
  refine ⟨by simp [ChurnPreprocessor.validate_input, hne], ?_, ?_, ?_, ?_, ?_,
          ?_, ?_⟩
  all_goals
    simp [violated_fields, List.mem_append, mem_ite_nil_singleton]

/-- Witness for C7: contract and tenure both invalid are reported together. -/
theorem validate_input_aggregates_witness :
    ChurnPreprocessor.validate_input
      ⟨"Weekly", -5, 50, 100, "Electronic check", "DSL", "Yes"⟩ =
      .error (.validation ["contract", "tenure"]) := by
  have hv : violated_fields
      ⟨"Weekly", -5, 50, 100, "Electronic check", "DSL", "Yes"⟩ =
      ["contract", "tenure"] := by
    norm_num [violated_fields, CONTRACT_VALUES, PAYMENT_METHOD_VALUES,
              INTERNET_SERVICE_VALUES, PAPERLESS_BILLING_VALUES, MIN_TENURE,
              MIN_MONTHLY_CHARGES, MIN_TOTAL_CHARGES]
    simp
  have h := (validate_input_aggregates
    ⟨"Weekly", -5, 50, 100, "Electronic check", "DSL", "Yes"⟩
    (by rw [hv]; decide)).1
  rw [h, hv]

/-- C1 (evaluation at the failing input): an otherwise-valid input with
monthly_charges = 1/200 satisfies the documented constraint
0 < monthly_charges <= 0.01, yet stage-1 validation rejects it, because the
pydantic field uses gt = MIN_MONTHLY_CHARGES with MIN_MONTHLY_CHARGES = 0.01
(a strict bound at 0.01, not at 0 as the constant's own comment states). -/
theorem validate_input_rejects_small_monthly_charges :
    (0 : ℚ) < 1/200 ∧ (1/200 : ℚ) ≤ MIN_MONTHLY_CHARGES ∧
    ChurnPreprocessor.validate_input
      ⟨"Month-to-month", 12, 1/200, 906, "Electronic check", "Fiber optic",
       "Yes"⟩ = .error (.validation ["monthly_charges"]) := by
  refine ⟨by norm_num, by norm_num [MIN_MONTHLY_CHARGES], ?_⟩
  have hv : violated_fields
      ⟨"Month-to-month", 12, 1/200, 906, "Electronic check", "Fiber optic",
       "Yes"⟩ = ["monthly_charges"] := by
    norm_num [violated_fields, CONTRACT_VALUES, PAYMENT_METHOD_VALUES,
              INTERNET_SERVICE_VALUES, PAPERLESS_BILLING_VALUES, MIN_TENURE,
              MIN_MONTHLY_CHARGES, MIN_TOTAL_CHARGES]
  unfold ChurnPreprocessor.validate_input
  rw [hv]
  simp

/-- C2: every input accepted by validation is preprocessed into exactly the
11-element vector in MODEL_FEATURES order, with each position holding the
corresponding raw, encoded or engineered value. -/
theorem preprocess_vector_spec (d : ClientInput)
    (hacc : ChurnPreprocessor.validate_input d = .ok d) :
    ChurnPreprocessor.preprocess d =
      .ok [d.monthly_charges / ((d.tenure : ℚ) + 1),
           (CONTRACT_VALUES.indexOf d.contract : ℚ),
           (d.tenure : ℚ),
           d.monthly_charges,
           ((if d.tenure ≤ 6 then 0 else if d.tenure ≤ 12 then 1
             else if d.tenure ≤ 24 then 2 else 3 : ℕ) : ℚ),
           d.total_charges,
           ((if d.tenure ≤ 6 then 1 else 0 : ℕ) : ℚ),
           (PAYMENT_METHOD_VALUES.indexOf d.payment_method : ℚ),
           (INTERNET_SERVICE_VALUES.indexOf d.internet_service : ℚ),
           (PAPERLESS_BILLING_VALUES.indexOf d.paperless_billing : ℚ),
           (if d.tenure = 0 then 1
            else d.total_charges / (d.monthly_charges * (d.tenure : ℚ)))] := by
  have hnil : violated_fields d = [] := by
    by_contra hne
    simp [ChurnPreprocessor.validate_input, hne] at hacc
  rw [violated_fields, List.append_eq_nil, List.append_eq_nil,
      List.append_eq_nil, List.append_eq_nil, List.append_eq_nil,
      List.append_eq_nil] at hnil
  rw [ite_nil_singleton_eq_nil, ite_nil_singleton_eq_nil,
      ite_nil_singleton_eq_nil, ite_nil_singleton_eq_nil,
      ite_nil_singleton_eq_nil, ite_nil_singleton_eq_nil,
      ite_nil_singleton_eq_nil] at hnil
  obtain ⟨⟨⟨⟨⟨⟨hc, ht⟩, hmc⟩, htc⟩, hpm⟩, his⟩, hpb⟩ := hnil
  have ht0 : 0 ≤ d.tenure := ht
  have hmc0 : 0 < d.monthly_charges :=
    lt_trans (by norm_num [MIN_MONTHLY_CHARGES]) hmc
  have htc0 : (0 : ℚ) ≤ d.total_charges := htc
  have henc := encode_categorical_ok d hc hpm his hpb
  have hg := gate_true d.tenure d.monthly_charges d.total_charges ht0 hmc0 htc0
  have heng : ChurnPreprocessor.compute_engineered_features d =
      .ok [("Ratio_MonthlyCharges_tenure",
             d.monthly_charges / ((d.tenure : ℚ) + 1)),
           ("tenure_segment_encoded",
             ((if d.tenure ≤ 6 then 0 else if d.tenure ≤ 12 then 1
               else if d.tenure ≤ 24 then 2 else 3 : ℕ) : ℚ)),
           ("is_new_customer", ((if d.tenure ≤ 6 then 1 else 0 : ℕ) : ℚ)),
           ("Ratio_TotalCharges_MonthlyCharges*tenure",
             if d.tenure = 0 then 1
             else d.total_charges / (d.monthly_charges * (d.tenure : ℚ)))] := by
    simp only [ChurnPreprocessor.compute_engineered_features,
      compute_all_ok d.tenure d.monthly_charges d.total_charges ht0 hmc0 htc0,
      hg, if_true]
  simp only [ChurnPreprocessor.preprocess, bind, Except.bind, hacc, henc, heng]
  simp only [ChurnPreprocessor.build_feature_vector, MODEL_FEATURES,
    lookup_features, List.lookup, List.map, List.append_eq]
  rfl

/-- Witness for C2 at the section-8 example input. -/
theorem preprocess_vector_spec_witness :
    ChurnPreprocessor.preprocess
      ⟨"Month-to-month", 12, 151/2, 906, "Electronic check", "Fiber optic",
       "Yes"⟩ =
      .ok [151/26, 0, 12, 151/2, 1, 906, 0, 2, 1, 1, 1] := by
  have hv : violated_fields
      ⟨"Month-to-month", 12, 151/2, 906, "Electronic check", "Fiber optic",
       "Yes"⟩ = [] := by
    norm_num [violated_fields, CONTRACT_VALUES, PAYMENT_METHOD_VALUES,
              INTERNET_SERVICE_VALUES, PAPERLESS_BILLING_VALUES, MIN_TENURE,
              MIN_MONTHLY_CHARGES, MIN_TOTAL_CHARGES]
  have hacc : ChurnPreprocessor.validate_input
      ⟨"Month-to-month", 12, 151/2, 906, "Electronic check", "Fiber optic",
       "Yes"⟩ = .ok ⟨"Month-to-month", 12, 151/2, 906, "Electronic check",
       "Fiber optic", "Yes"⟩ := by
    simp [ChurnPreprocessor.validate_input, hv]
  have h := preprocess_vector_spec
    ⟨"Month-to-month", 12, 151/2, 906, "Electronic check", "Fiber optic",
     "Yes"⟩ hacc
  rw [h]
  have e1 : CONTRACT_VALUES.indexOf "Month-to-month" = 0 := by decide
  have e2 : PAYMENT_METHOD_VALUES.indexOf "Electronic check" = 2 := by decide
  have e3 : INTERNET_SERVICE_VALUES.indexOf "Fiber optic" = 1 := by decide
  have e4 : PAPERLESS_BILLING_VALUES.indexOf "Yes" = 1 := by decide
  norm_num [e1, e2, e3, e4]

theorem preprocess_batch_from_ok (ds : List ClientInput) :
    ∀ (i : ℕ) (vs : List (List ℚ)),
      ds.map ChurnPreprocessor.preprocess = vs.map Except.ok →
      preprocess_batch_from i ds = .ok vs := by
  induction ds with
  | nil =>
      intro i vs h
      rw [List.map_nil] at h
      have hvs : vs = [] := by
        cases vs with
        | nil => rfl
        | cons v vs => simp at h
      subst hvs
      rfl
  | cons d ds ih =>
      intro i vs h
      cases vs with
      | nil => simp at h
      | cons v vs =>
          rw [List.map_cons, List.map_cons] at h
          have hd : ChurnPreprocessor.preprocess d = .ok v :=
            (List.cons.injEq _ _ _ _ ▸ h).1
          have hds : ds.map ChurnPreprocessor.preprocess = vs.map Except.ok :=
            (List.cons.injEq _ _ _ _ ▸ h).2
          simp [preprocess_batch_from, hd, ih (i + 1) vs hds]

theorem preprocess_batch_from_err (d : ClientInput) (e : PreprocessError)
    (hd : ChurnPreprocessor.preprocess d = .error e) :
    ∀ (ds1 : List ClientInput) (i : ℕ) (ds2 : List ClientInput),
      (∀ d1 ∈ ds1, ∃ v, ChurnPreprocessor.preprocess d1 = .ok v) →
      preprocess_batch_from i (ds1 ++ d :: ds2) =
        .error (i + ds1.length, e) := by
  intro ds1
  induction ds1 with
  | nil =>
      intro i ds2 _
      simp [preprocess_batch_from, hd]
  | cons d1 ds1 ih =>
      intro i ds2 hok
      obtain ⟨v, hv⟩ := hok d1 (by simp)
      have hrest := ih (i + 1) ds2 (fun d2 h2 => hok d2 (by simp [h2]))
      simp only [List.cons_append, preprocess_batch_from, hv, List.append_eq]
      rw [hrest]
      have harith : i + 1 + ds1.length = i + (d1 :: ds1).length := by
        simp only [List.length_cons]
        omega
      rw [harith]

/-- C6: preprocess_batch applies the single-record pipeline independently in
input order: when every record maps to a preprocessed vector, the batch
returns exactly those vectors in order; and when the records up to some index
succeed but the record at that index fails, the whole batch fails with an
error naming that index, with no partial results. -/
theorem preprocess_batch_spec :
    (∀ (ds : List ClientInput) (vs : List (List ℚ)),
      ds.map ChurnPreprocessor.preprocess = vs.map Except.ok →
      ChurnPreprocessor.preprocess_batch ds = .ok vs) ∧
    (∀ (ds1 : List ClientInput) (d : ClientInput) (ds2 : List ClientInput)
       (e : PreprocessError),
      (∀ d1 ∈ ds1, ∃ v, ChurnPreprocessor.preprocess d1 = .ok v) →
      ChurnPreprocessor.preprocess d = .error e →
      ChurnPreprocessor.preprocess_batch (ds1 ++ d :: ds2) =
        .error (ds1.length, e)) := by
  constructor
  · intro ds vs h
    exact preprocess_batch_from_ok ds 0 vs h
  · intro ds1 d ds2 e hok hd
    have h := preprocess_batch_from_err d e hd ds1 0 ds2 hok
    rw [ChurnPreprocessor.preprocess_batch, h]
    norm_num

/-- Witness for C6: a batch whose single record fails validation fails as a
whole, with the error naming record 0. -/
theorem preprocess_batch_spec_witness :
    ChurnPreprocessor.preprocess_batch
      [⟨"Weekly", -5, 50, 100, "Electronic check", "DSL", "Yes"⟩] =
      .error (0, .validation ["contract", "tenure"]) := by
  have hv : violated_fields
      ⟨"Weekly", -5, 50, 100, "Electronic check", "DSL", "Yes"⟩ =
      ["contract", "tenure"] := by
    norm_num [violated_fields, CONTRACT_VALUES, PAYMENT_METHOD_VALUES,
              INTERNET_SERVICE_VALUES, PAPERLESS_BILLING_VALUES, MIN_TENURE,
              MIN_MONTHLY_CHARGES, MIN_TOTAL_CHARGES]
    simp
  have hd : ChurnPreprocessor.preprocess
      ⟨"Weekly", -5, 50, 100, "Electronic check", "DSL", "Yes"⟩ =
      .error (.validation ["contract", "tenure"]) := by
    have hval : ChurnPreprocessor.validate_input
        ⟨"Weekly", -5, 50, 100, "Electronic check", "DSL", "Yes"⟩ =
        .error (.validation ["contract", "tenure"]) := by
      unfold ChurnPreprocessor.validate_input
      rw [hv]
      simp
    simp [ChurnPreprocessor.preprocess, bind, Except.bind, hval]
  have h := preprocess_batch_spec.2 []
    ⟨"Weekly", -5, 50, 100, "Electronic check", "DSL", "Yes"⟩ [] _
    (by simp) hd
  simpa using h

end Churn
